import Mathlib

/-!
Verification of the GitRepo2Markdown-Exporter core (`repo2markdown.py`)
against its natural-language specification.

Python strings are embedded as `List Char`; Python `None` content becomes
`Option`; the git/filesystem providers (`git ls-files`, `os.walk`, `open`)
are external collaborators and appear as parameters or as explicit
success/failure inputs.  All definitions are executable.
-/

set_option autoImplicit false

namespace Repo2Md

/-! ### Character-list string helpers (Python `str` operations) -/

/-- Python `s.split(sep)` for a single-character separator: no collapsing,
an empty string yields one empty segment. -/
def splitOnChar (sep : Char) : List Char → List (List Char)
  | [] => [[]]
  | c :: cs =>
    if c = sep then [] :: splitOnChar sep cs
    else
      match splitOnChar sep cs with
      | s :: rest => (c :: s) :: rest
      | [] => [[c]]

theorem splitOnChar_ne_nil (sep : Char) (l : List Char) : splitOnChar sep l ≠ [] := by
  induction l with
  | nil => simp [splitOnChar]
  | cons c cs ih =>
    simp only [splitOnChar]
    split
    · simp
    · cases h : splitOnChar sep cs with
      | nil => simp
      | cons s rest => simp

theorem splitOnChar_length (sep : Char) (l : List Char) :
    (splitOnChar sep l).length = l.count sep + 1 := by
  induction l with
  | nil => simp [splitOnChar]
  | cons c cs ih =>
    simp only [splitOnChar]
    split
    · rename_i h
      simp [List.count_cons, h, ih]
    · rename_i h
      cases hs : splitOnChar sep cs with
      | nil => exact absurd hs (splitOnChar_ne_nil sep cs)
      | cons s rest =>
        have := ih
        rw [hs] at this
        simp only [List.length_cons] at this ⊢
        have hne : ¬ c = sep := h
        simp [List.count_cons, hne]
        omega

/-- Python `s.rstrip(ch)`: remove every trailing occurrence of `ch`. -/
def rstripChar (ch : Char) (l : List Char) : List Char :=
  (l.reverse.dropWhile (fun c => c = ch)).reverse

/-- Python `s.lstrip(ch)`: remove every leading occurrence of `ch`. -/
def lstripChar (ch : Char) (l : List Char) : List Char :=
  l.dropWhile (fun c => c = ch)

theorem dropWhile_idem {α : Type} (p : α → Bool) (l : List α) :
    (l.dropWhile p).dropWhile p = l.dropWhile p := by
  induction l with
  | nil => simp
  | cons a l ih =>
    by_cases h : p a
    · simp [List.dropWhile_cons, h, ih]
    · simp [List.dropWhile_cons, h]

theorem lstripChar_idem (ch : Char) (l : List Char) :
    lstripChar ch (lstripChar ch l) = lstripChar ch l :=
  dropWhile_idem _ l

theorem rstripChar_idem (ch : Char) (l : List Char) :
    rstripChar ch (rstripChar ch l) = rstripChar ch l := by
  simp [rstripChar, dropWhile_idem]

/-- Decimal digits of a natural number, as Python's `str(n)` / f-string
interpolation renders it. -/
def natChars (n : Nat) : List Char :=
  (Nat.repr n).toList

/-! ### `fnmatch.fnmatch` (Python stdlib, POSIX: `normcase` is the identity)

The pattern is compiled to a token list, mirroring `fnmatch.translate`:
`*` matches any character sequence (including `/`), `?` any single
character, `[seq]` a character class (leading `!` negates, a `]` right
after the opening bracket is literal, `a-b` is an inclusive range, an
unclosed `[` is a literal `[`). -/

/-- Membership of a character in a bracket-expression body, with `a-b`
ranges; a `-` that has no character on one of its sides is literal. -/
def charInSeq (c : Char) : List Char → Bool
  | a :: '-' :: b :: rest => (a ≤ c && c ≤ b) || charInSeq c rest
  | a :: rest => (c = a) || charInSeq c rest
  | [] => false

/-- Scan to the closing `]`; returns the body and the remaining pattern. -/
def scanClose : List Char → Option (List Char × List Char)
  | [] => none
  | c :: r =>
    if c = ']' then some ([], r)
    else (scanClose r).map (fun p => (c :: p.1, p.2))

theorem scanClose_rest_lt : ∀ (l s rest : List Char),
    scanClose l = some (s, rest) → rest.length < l.length := by
  intro l
  induction l with
  | nil => intro s rest h; simp [scanClose] at h
  | cons c r ih =>
    intro s rest h
    simp only [scanClose] at h
    split at h
    · simp at h
      simp [← h.2]
    · cases hs : scanClose r with
      | none => rw [hs] at h; simp at h
      | some p =>
        obtain ⟨s', rest'⟩ := p
        rw [hs] at h
        simp only [Option.map_some', Option.some_inj, Prod.mk.injEq] at h
        obtain ⟨h1, h2⟩ := h
        subst h2
        have := ih s' rest' hs
        simp
        omega

/-- Bracket body parse after an optional leading `!` has been consumed:
a `]` in first position is part of the body. -/
def parseBracketBody (ps1 : List Char) : Option (List Char × List Char) :=
  if ps1.head? = some ']' then (scanClose ps1.tail).map (fun p => (']' :: p.1, p.2))
  else scanClose ps1

theorem parseBracketBody_rest_lt (ps1 s rest : List Char)
    (h : parseBracketBody ps1 = some (s, rest)) : rest.length < ps1.length := by
  unfold parseBracketBody at h
  split at h
  · rename_i hh
    cases ps1 with
    | nil => simp at hh
    | cons c r =>
      simp at hh
      subst hh
      simp only [List.tail_cons] at h
      cases hs : scanClose r with
      | none => rw [hs] at h; simp at h
      | some p =>
        obtain ⟨s', rest'⟩ := p
        rw [hs] at h
        simp only [Option.map_some', Option.some_inj, Prod.mk.injEq] at h
        obtain ⟨h1, h2⟩ := h
        subst h2
        have := scanClose_rest_lt r s' rest' hs
        simp
        omega
  · exact scanClose_rest_lt ps1 s rest h

/-- Parse a bracket expression right after the opening `[`:
returns (negated?, body, rest-of-pattern), or `none` if there is no
closing `]` (in which case the `[` is treated as a literal). -/
def parseBracket (ps : List Char) : Option (Bool × List Char × List Char) :=
  if ps.head? = some '!' then (parseBracketBody ps.tail).map (fun p => (true, p.1, p.2))
  else (parseBracketBody ps).map (fun p => (false, p.1, p.2))

theorem parseBracket_rest_lt (ps : List Char) (neg : Bool) (s rest : List Char)
    (h : parseBracket ps = some (neg, s, rest)) : rest.length < ps.length := by
  unfold parseBracket at h
  split at h
  · cases hb : parseBracketBody ps.tail with
    | none => rw [hb] at h; simp at h
    | some p =>
      obtain ⟨s', rest'⟩ := p
      rw [hb] at h
      simp only [Option.map_some', Option.some_inj, Prod.mk.injEq] at h
      obtain ⟨h0, h1', h2'⟩ := h
      subst h2'
      have h1 := parseBracketBody_rest_lt ps.tail s' rest' hb
      have h2 : ps.tail.length ≤ ps.length := by
        cases ps <;> simp
      omega
  · cases hb : parseBracketBody ps with
    | none => rw [hb] at h; simp at h
    | some p =>
      obtain ⟨s', rest'⟩ := p
      rw [hb] at h
      simp only [Option.map_some', Option.some_inj, Prod.mk.injEq] at h
      obtain ⟨h0, h1', h2'⟩ := h
      subst h2'
      exact parseBracketBody_rest_lt ps s' rest' hb

/-- One compiled glob token. -/
inductive GlobTok where
  | star : GlobTok
  | anyChar : GlobTok
  | lit : Char → GlobTok
  | cls : Bool → List Char → GlobTok
deriving DecidableEq

/-- Compile a glob pattern to tokens (the shape `fnmatch.translate`
gives).  The first argument is recursion fuel: every step consumes at
least one pattern character (`parseBracket_rest_lt`), so
`pattern.length + 1` fuel always suffices and the `0` case is never
reached from `compilePat`. -/
def compilePatF : Nat → List Char → List GlobTok
  | 0, _ => []
  | fuel + 1, l =>
    match l with
    | [] => []
    | c :: ps =>
      if c = '*' then .star :: compilePatF fuel ps
      else if c = '?' then .anyChar :: compilePatF fuel ps
      else if c = '[' then
        match parseBracket ps with
        | some (neg, s, rest) => .cls neg s :: compilePatF fuel rest
        | none => .lit '[' :: compilePatF fuel ps
      else .lit c :: compilePatF fuel ps

/-- Compile a glob pattern to tokens. -/
def compilePat (l : List Char) : List GlobTok :=
  compilePatF (l.length + 1) l

/-- Run compiled glob tokens against a text (full match, like
`re.match(translate(pat), name)` which is anchored at both ends).  The
fuel argument makes the recursion structural: every step shrinks
`text.length + tokens.length`, so `text.length + tokens.length + 1` fuel
always suffices and the `0` case is never reached from `runGlob`. -/
def runGlobF : Nat → List Char → List GlobTok → Bool
  | 0, _, _ => false
  | fuel + 1, t, toks =>
    match t, toks with
    | t, .star :: ps =>
      runGlobF fuel t ps ||
        (match t with
         | [] => false
         | _ :: ts => runGlobF fuel ts (.star :: ps))
    | [], [] => true
    | [], _ :: _ => false
    | _ :: _, [] => false
    | _ :: ts, .anyChar :: ps => runGlobF fuel ts ps
    | c :: ts, .lit a :: ps => (c = a) && runGlobF fuel ts ps
    | c :: ts, .cls neg s :: ps =>
      (if neg then !(charInSeq c s) else charInSeq c s) && runGlobF fuel ts ps

/-- Run compiled glob tokens against a text. -/
def runGlob (t : List Char) (toks : List GlobTok) : Bool :=
  runGlobF (t.length + toks.length + 1) t toks

/-- Python `fnmatch.fnmatch(name, pat)` on a POSIX platform. -/
def fnmatch (name pat : List Char) : Bool :=
  runGlob name (compilePat pat)

/-! ### `matches_pattern` (repo2markdown.py lines 89-145) -/

/-- `s.replace('\\', '/')`: normalize path separators. -/
def normSep (l : List Char) : List Char :=
  l.map (fun c => if c = '\\' then '/' else c)

/-- `'**' in pattern`. -/
def hasDoubleStar : List Char → Bool
  | '*' :: '*' :: _ => true
  | _ :: r => hasDoubleStar r
  | [] => false

/-- `pattern.split('**')`: non-overlapping left-to-right split on the
two-character separator. -/
def splitDS : List Char → List (List Char)
  | '*' :: '*' :: r => [] :: splitDS r
  | c :: r =>
    match splitDS r with
    | s :: rest => (c :: s) :: rest
    | [] => [[c]]
  | [] => [[]]

/-- The slash character as a one-element list (for `'/'.join`). -/
def slashSep : List Char := ("/").toList

/-- Lines 125-145 of `matches_pattern`: the general branch reached when
the pattern has no `**` split into exactly two parts.  Directory
shorthand, whole-path fnmatch, basename fnmatch, and the any-depth
suffix fallback. -/
def mp_general (filepath pat0 : List Char) : Bool :=
  let pat := if pat0 ≠ [] ∧ pat0.getLast? = some '/'
    then rstripChar '/' pat0 ++ ("/*").toList else pat0
  let parts := splitOnChar '/' filepath
  fnmatch filepath pat
  || fnmatch (parts.getLastD []) pat
  || (List.range parts.length).any (fun i =>
        fnmatch (List.intercalate slashSep (parts.drop i)) pat)

/-- Lines 102-123 of `matches_pattern`: the single-`**` branch.
`pre0`/`suf0` are the raw halves of `pattern.split('**')`. -/
def mp_doublestar (filepath pre0 suf0 : List Char) : Bool :=
  let pr := rstripChar '/' pre0
  let su := lstripChar '/' suf0
  if pr ≠ [] ∧ ¬ (List.isPrefixOf (rstripChar '*' pr) filepath)
      ∧ ¬ (fnmatch ((splitOnChar '/' filepath).headD []) (rstripChar '/' pr) = true) then
    false
  else if su ≠ [] then
    let parts := splitOnChar '/' filepath
    (List.range parts.length).any (fun i =>
      fnmatch (List.intercalate slashSep (parts.drop i)) su
      || fnmatch (List.intercalate slashSep (parts.drop i)) (lstripChar '/' su))
  else
    List.isPrefixOf (rstripChar '*' pr) filepath || fnmatch filepath (pr ++ ("*").toList)

/-- `matches_pattern(filepath, pattern)`: gitignore-style matching with
`*`, `**`, `?` and `[seq]` support (repo2markdown.py lines 89-145). -/
def matches_pattern (filepath0 pattern0 : List Char) : Bool :=
  let filepath := normSep filepath0
  let pat := normSep pattern0
  if hasDoubleStar pat then
    match splitDS pat with
    | [pre0, suf0] => mp_doublestar filepath pre0 suf0
    | _ => mp_general filepath pat
  else mp_general filepath pat

/-- `matches_any_pattern(filepath, patterns)` (lines 148-150). -/
def matches_any_pattern (filepath : List Char) (patterns : List (List Char)) : Bool :=
  patterns.any (fun p => matches_pattern filepath p)

/-! ### Rule Set Loader: `parse_config` (lines 47-86) -/

/-- `CONFIG_FILENAME = ".repotomdrc"` (line 44). -/
def CONFIG_FILENAME : List Char := (".repotomdrc").toList

/-- Python's `str.strip()` whitespace set. -/
def pyIsSpace (c : Char) : Bool :=
  c = ' ' ∨ c = '\t' ∨ c = '\n' ∨ c = '\r' ∨ c = '\x0b' ∨ c = '\x0c'

/-- Python `line.strip()`. -/
def pyStrip (l : List Char) : List Char :=
  ((l.dropWhile pyIsSpace).reverse.dropWhile pyIsSpace).reverse

/-- Python `line.lower()` restricted to ASCII case folding (section
headers are ASCII). -/
def pyLower (l : List Char) : List Char :=
  l.map Char.toLower

/-- The active section while scanning the rules file. -/
inductive CfgSection where
  | excl : CfgSection
  | incl : CfgSection
deriving DecidableEq

/-- The body of `parse_config`'s `for line in f` loop (lines 63-82),
threading the current section and the two accumulated pattern lists. -/
def parse_config_loop : List (List Char) → Option CfgSection →
    List (List Char) × List (List Char) → List (List Char) × List (List Char)
  | [], _, acc => acc
  | l :: rest, sect, (e, i) =>
    let line := pyStrip l
    if line = [] ∨ line.head? = some '#' then
      parse_config_loop rest sect (e, i)
    else if pyLower line = ("[exclude]").toList then
      parse_config_loop rest (some .excl) (e, i)
    else if pyLower line = ("[include]").toList then
      parse_config_loop rest (some .incl) (e, i)
    else
      match sect with
      | some .excl => parse_config_loop rest sect (e ++ [line], i)
      | some .incl => parse_config_loop rest sect (e, i ++ [line])
      | none => parse_config_loop rest sect (e, i)

/-- Outcome of iterating the config file: either the whole file was read,
or an `IOError`/`OSError` was raised after the given lines had been
consumed (this also covers a failing `open`, with no lines consumed). -/
inductive ReadOutcome where
  | ok : ReadOutcome
  | ioError : ReadOutcome
deriving DecidableEq

/-- `parse_config` (lines 47-86).  The filesystem is abstracted: `exists`
is `os.path.isfile(config_path)`, `readLines` are the lines the iterator
yielded before `outcome` happened.  Returns the
`(exclude_patterns, include_patterns)` pair together with the list of
warnings printed (line 84 prints one warning on an I/O error; the
exception text is abstracted away). -/
def parse_config (exists0 : Bool) (readLines : List (List Char)) (outcome : ReadOutcome) :
    (List (List Char) × List (List Char)) × List (List Char) :=
  if exists0 = false then (([], []), [])
  else
    let r := parse_config_loop readLines none ([], [])
    match outcome with
    | .ok => (r, [])
    | .ioError => (r, [("Warning: Could not read .repotomdrc").toList])

/-! ### File Selector: `get_filtered_files` (lines 187-233)

The external providers are parameters: `tracked` is the value of
`get_tracked_files(repo_path)` (`git ls-files`; the function is called
twice in the source and, the repository being unchanged within a run,
returns the same set both times), `allf` is `get_all_files(repo_path)`
(the `os.walk` over the tree), and `excl`/`incl` are the two lists
`parse_config` returned. -/

/-- `get_filtered_files` (lines 187-233): exclusions, inclusions from the
ignored set, then unconditional removal of the config file itself. -/
def get_filtered_files (tracked allf : Finset (List Char))
    (excl incl : List (List Char)) : Finset (List Char) :=
  let t1 := if excl.isEmpty then tracked
    else tracked.filter (fun f => matches_any_pattern f excl = false)
  let t2 := if incl.isEmpty then t1
    else t1 ∪ (allf \ tracked).filter (fun f => matches_any_pattern f incl = true)
  t2.erase CONFIG_FILENAME

/-! ### Content Classifier: `is_binary_file` (lines 236-251) -/

/-- Is a byte the first byte of a valid UTF-8 sequence completed by the
following bytes?  Standard UTF-8 validation as CPython's strict decoder
performs it (RFC 3629: no overlongs, no surrogates, max U+10FFFF). -/
def utf8Cont (b : Nat) : Bool := 0x80 ≤ b ∧ b ≤ 0xBF

/-- Validity of a byte string as UTF-8 (what `chunk.decode('utf-8')`
succeeding means). -/
def utf8Valid : List Nat → Bool
  | [] => true
  | b :: rest =>
    if b < 0x80 then utf8Valid rest
    else if 0xC2 ≤ b ∧ b ≤ 0xDF then
      match rest with
      | b2 :: r => utf8Cont b2 && utf8Valid r
      | [] => false
    else if b = 0xE0 then
      match rest with
      | b2 :: b3 :: r => (0xA0 ≤ b2 && b2 ≤ 0xBF) && utf8Cont b3 && utf8Valid r
      | _ => false
    else if (0xE1 ≤ b ∧ b ≤ 0xEC) ∨ b = 0xEE ∨ b = 0xEF then
      match rest with
      | b2 :: b3 :: r => utf8Cont b2 && utf8Cont b3 && utf8Valid r
      | _ => false
    else if b = 0xED then
      match rest with
      | b2 :: b3 :: r => (0x80 ≤ b2 && b2 ≤ 0x9F) && utf8Cont b3 && utf8Valid r
      | _ => false
    else if b = 0xF0 then
      match rest with
      | b2 :: b3 :: b4 :: r => (0x90 ≤ b2 && b2 ≤ 0xBF) && utf8Cont b3 && utf8Cont b4 && utf8Valid r
      | _ => false
    else if 0xF1 ≤ b ∧ b ≤ 0xF3 then
      match rest with
      | b2 :: b3 :: b4 :: r => utf8Cont b2 && utf8Cont b3 && utf8Cont b4 && utf8Valid r
      | _ => false
    else if b = 0xF4 then
      match rest with
      | b2 :: b3 :: b4 :: r => (0x80 ≤ b2 && b2 ≤ 0x8F) && utf8Cont b3 && utf8Cont b4 && utf8Valid r
      | _ => false
    else false
termination_by l => l.length
decreasing_by all_goals (simp <;> omega)

/-- `is_binary_file(filepath)` (lines 236-251).  The file's raw bytes are
the input; `none` models an `IOError`/`OSError` while opening or reading
(the `except` on line 250 returns `True`).  `f.read(8192)` is
`bytes.take 8192`; a null byte in that chunk, or a chunk that fails
strict UTF-8 decoding, classifies the file binary. -/
def is_binary_file (file : Option (List Nat)) : Bool :=
  match file with
  | none => true
  | some bytes =>
    let chunk := bytes.take 8192
    if chunk.contains 0 then true
    else !(utf8Valid chunk)

/-! ### Line-Accounting Document Builder: `create_markdown` (lines 297-458)

The builder is embedded from the point where the selection is fixed and
`file_contents` has been fetched (lines 313-319): its input is the sorted
file list, each path paired with `get_file_content`'s result (`none` for
a binary file, `some text` for a text file — a read error after text
classification yields the synthetic error string, which is still `some`).
The output is the list of physical lines of the document: the script
writes `'\n'.join(output_lines)`, so a content string containing `k`
newlines contributes `k+1` physical lines, which is exactly what
expanding it with `splitOnChar '\n'` yields. -/

/-- One selected file as the builder sees it: its repository-relative
path and `file_contents[filepath]`. -/
structure FileEntry where
  path : List Char
  content : Option (List Char)
deriving DecidableEq

/-- Python `content.rstrip('\n')` (line 389 / 445). -/
def rstripNl (c : List Char) : List Char := rstripChar '\n' c

/-- `content_lines` (lines 383-389): 1 for a binary file, otherwise the
number of `'\n'`-delimited segments after stripping trailing newlines. -/
def content_lines_of : Option (List Char) → Nat
  | none => 1
  | some c => (splitOnChar '\n' (rstripNl c)).length

/-- `file_type` (lines 386/390). -/
def file_type_of : Option (List Char) → List Char
  | none => ("binary").toList
  | some _ => ("text").toList

/-- `Path(filepath).parts` for a relative slash path. -/
def pathParts (p : List Char) : List (List Char) :=
  (splitOnChar '/' p).filter (fun s => s ≠ [])

/-- `Path(filepath).suffix`: the final `.ext` of the last component, empty
for hidden files (leading dot) and names without an interior dot. -/
def lastDotIdx : List Char → Option Nat
  | [] => none
  | x :: xs =>
    match lastDotIdx xs with
    | some i => some (i + 1)
    | none => if x = '.' then some 0 else none

/-- `Path(filepath).suffix.lstrip('.') or 'txt'` (line 381/432). -/
def ext_of (p : List Char) : List Char :=
  let name := (pathParts p).getLastD []
  let suf : List Char :=
    match lastDotIdx name with
    | some i => if 0 < i ∧ i < name.length - 1 then name.drop i else []
    | none => []
  let e := lstripChar '.' suf
  if e = [] then ("txt").toList else e

/-- The anchor token (lines 423/433): path separators, dots and
underscores become hyphens, then lower-case. -/
def anchor_of (p : List Char) : List Char :=
  p.map (fun c => (if c = '/' ∨ c = '.' ∨ c = '_' then '-' else c).toLower)

/-- `build_directory_tree`'s nested dict (lines 265-277): an
insertion-ordered association list; a `none`-marked leaf is a file. -/
inductive DirTree where
  | file : DirTree
  | dir : List (List Char × DirTree) → DirTree

/-- Insertion-ordered dict assignment `current[k] = v`. -/
def dictSet (items : List (List Char × DirTree)) (k : List Char) (v : DirTree) :
    List (List Char × DirTree) :=
  match items with
  | [] => [(k, v)]
  | (k', v') :: rest => if k' = k then (k, v) :: rest else (k', v') :: dictSet rest k v

/-- Dict lookup. -/
def dictGet (items : List (List Char × DirTree)) (k : List Char) : Option DirTree :=
  match items with
  | [] => none
  | (k', v') :: rest => if k' = k then some v' else dictGet rest k

/-- Insert one path's parts (lines 269-276): descend through the interior
parts creating empty dicts on demand, then mark the last part as a file.
(If a path is both a file and a directory of an earlier path the script
would raise; this total model descends into an empty dict there.) -/
def insertParts (items : List (List Char × DirTree)) : List (List Char) →
    List (List Char × DirTree)
  | [] => items
  | [name] => dictSet items name .file
  | name :: rest =>
    let sub := match dictGet items name with
      | some (.dir l) => l
      | _ => []
    dictSet items name (.dir (insertParts sub rest))

/-- `build_directory_tree(files)` (lines 265-277) applied to the sorted
path list. -/
def build_directory_tree (paths : List (List Char)) : List (List Char × DirTree) :=
  paths.foldl (fun t p => insertParts t (pathParts p)) []

/-- `generate_tree_lines` (lines 280-294) on a dict's item list.  The
first argument is recursion fuel, making the recursion structural: every
call moves to a child list or to the tail of the sibling list, so any
fuel exceeding the number of entries of the whole tree suffices. -/
def generate_tree_linesF : Nat → List (List Char × DirTree) → List Char →
    List (List Char)
  | 0, _, _ => []
  | fuel + 1, items, pre =>
    match items with
    | [] => []
    | (name, sub) :: rest =>
      let isLast : Bool := rest.isEmpty
      let connector := if isLast then ("└── ").toList else ("├── ").toList
      (match sub with
       | .file => [pre ++ connector ++ ("📄 ").toList ++ name]
       | .dir subItems =>
         (pre ++ connector ++ ("📁 ").toList ++ name ++ ("/").toList)
           :: generate_tree_linesF fuel subItems
                (pre ++ (if isLast then ("    ").toList else ("│   ").toList)))
      ++ generate_tree_linesF fuel rest pre

/-- Fuel bound for a tree built from `paths`: the tree has at most one
entry per path-part, so this always suffices. -/
def treeFuel (paths : List (List Char)) : Nat :=
  (paths.map (fun p => (pathParts p).length)).sum + 1

/-- `generate_tree_lines(tree)` for the tree of `paths`, with its default
empty prefix. -/
def generate_tree_lines (paths : List (List Char)) : List (List Char) :=
  generate_tree_linesF (treeFuel paths) (build_directory_tree paths) []

/-- `header_lines` (lines 323-332). -/
def header_lines (repoName repoPath : List Char) (n : Nat) : List (List Char) :=
  [("# Repository: ").toList ++ repoName,
   [],
   ("**Path:** `").toList ++ repoPath ++ ("`").toList,
   [],
   ("**Total tracked files:** ").toList ++ natChars n,
   [],
   ("---").toList,
   []]

/-- `structure_lines` (lines 335-342). -/
def structure_lines (repoName : List Char) (files : List FileEntry) : List (List Char) :=
  [("## 📂 Directory Structure").toList,
   [],
   ("```").toList,
   repoName ++ ("/").toList]
  ++ generate_tree_lines (files.map (fun f => f.path))
  ++ [("```").toList, [], ("---").toList, []]

/-- `toc_header` (lines 345-350). -/
def toc_header : List (List Char) :=
  [("## 📑 Table of Contents").toList,
   [],
   ("| File | Lines | Type |").toList,
   ("|------|-------|------|").toList]

/-- `content_section_header` (lines 365-371). -/
def content_section_header : List (List Char) :=
  [[], ("---").toList, [], ("## 📄 File Contents").toList, []]

/-- `pre_content_lines` (lines 357-372): line count of everything before
the first file section. -/
def pre_content_lines (repoName repoPath : List Char) (files : List FileEntry) : Nat :=
  (header_lines repoName repoPath files.length).length
  + (structure_lines repoName files).length
  + toc_header.length
  + files.length
  + content_section_header.length

/-- The accumulation loop of lines 379-411: each file's
`(start_line, end_line, file_type)`; `total_file_lines` is
`4 + 1 + content_lines + 1 + 1 + 1` and the next file starts at
`end_line + 2`. -/
def ranges_from : List FileEntry → Nat → List (Nat × Nat × List Char)
  | [], _ => []
  | f :: rest, current =>
    let cl := content_lines_of f.content
    let total := 4 + 1 + cl + 1 + 1 + 1
    let e := current + total - 1
    (current, e, file_type_of f.content) :: ranges_from rest (e + 2)

/-- `file_line_ranges` (lines 376-411), in the order of the sorted file
list; the first file starts at `pre_content_lines + 1`. -/
def file_line_ranges (repoName repoPath : List Char) (files : List FileEntry) :
    List (Nat × Nat × List Char) :=
  ranges_from files (pre_content_lines repoName repoPath files + 1)

/-- The icon of a TOC row (line 424). -/
def icon_of : Option (List Char) → List Char
  | some _ => ("📄").toList
  | none => ("📦").toList

/-- One TOC row (line 425). -/
def toc_row (f : FileEntry) (s e : Nat) : List Char :=
  ("| ").toList ++ icon_of f.content ++ (" [").toList ++ f.path
  ++ ("](#").toList ++ anchor_of f.path ++ (") | ").toList
  ++ natChars s ++ ("-").toList ++ natChars e
  ++ (" | ").toList ++ file_type_of f.content ++ (" |").toList

/-- The TOC rows (lines 420-425), one per file in sorted order, carrying
the numbers from `file_line_ranges`. -/
def toc_rows (repoName repoPath : List Char) (files : List FileEntry) : List (List Char) :=
  (files.zip (file_line_ranges repoName repoPath files)).map
    (fun fr => toc_row fr.1 fr.2.1 fr.2.2.1)

/-- One file's rendered section (lines 435-450), as physical lines: the
4-line header, the opening fence, the content lines (a binary file shows
one placeholder line), the closing fence, a blank, the `---` separator
and a final blank. -/
def file_section_lines (f : FileEntry) : List (List Char) :=
  [("### ").toList ++ f.path,
   [],
   ("**Path:** `").toList ++ f.path ++ ("`").toList,
   []]
  ++ (match f.content with
      | none => [("```").toList, ("[Binary file - content not displayed]").toList]
      | some c => (("```").toList ++ ext_of f.path) :: splitOnChar '\n' (rstripNl c))
  ++ [("```").toList, [], ("---").toList, []]

/-- The whole document (lines 413-450) as its physical line list. -/
def output_lines (repoName repoPath : List Char) (files : List FileEntry) :
    List (List Char) :=
  header_lines repoName repoPath files.length
  ++ structure_lines repoName files
  ++ toc_header
  ++ toc_rows repoName repoPath files
  ++ content_section_header
  ++ (files.map file_section_lines).flatten

/-! ## Claims -/

/-! ### C7 — the rule-set source file never appears in the selection -/

/-- Claim C7: for every input to the selector, the rule-set source file's
well-known name `.repotomdrc` is absent from the final selection, even
when that path is tracked, matches an include pattern and matches no
exclude pattern — `get_filtered_files` ends with
`tracked_files.discard(CONFIG_FILENAME)` (lines 230-233). -/
theorem config_file_never_selected (tracked allf : Finset (List Char))
    (excl incl : List (List Char)) :
    CONFIG_FILENAME ∉ get_filtered_files tracked allf excl incl := by
  unfold get_filtered_files
  exact Finset.not_mem_erase _ _

/-! ### C9 — a null byte in the first 8192 bytes means binary -/

/-- Claim C9: a file whose first 8192 bytes contain a null byte is
classified binary whatever the rest of its content is, and an I/O failure
during classification (the `none` input) is also classified binary
(lines 236-251). -/
theorem null_byte_is_binary (bytes : List Nat) (h : 0 ∈ bytes.take 8192) :
    is_binary_file (some bytes) = true ∧ is_binary_file none = true := by
  refine ⟨?_, rfl⟩
  unfold is_binary_file
  have hc : (List.take 8192 bytes).contains 0 = true := by
    simp [List.contains]
    exact h
  simp [hc]
  exact Or.inl h

/-- Witness for C9 at a concrete input: the bytes `[104, 0, 255]` have a
null byte in their 8192-byte prefix and are classified binary. -/
theorem null_byte_is_binary_witness :
    (0 ∈ ([104, 0, 255] : List Nat).take 8192)
    ∧ (is_binary_file (some [104, 0, 255]) = true ∧ is_binary_file none = true) :=
  ⟨by decide, null_byte_is_binary [104, 0, 255] (by decide)⟩

/-! ### C10 — a single `*` crosses `/` in the whole-path branch -/

/-- Claim C10: `matches_pattern("docs/a/b", "docs/*")` is true although the
pattern has a single `*` and no `**`: the whole-path branch (line 130)
delegates to `fnmatch`, whose `*` matches any characters including `/`. -/
theorem single_star_crosses_slash :
    matches_pattern (("docs/a/b").toList) (("docs/*").toList) = true
    ∧ fnmatch (("docs/a/b").toList) (("docs/*").toList) = true
    ∧ hasDoubleStar (("docs/*").toList) = false := by
  refine ⟨by decide, by decide, by decide⟩

/-! ### C8 — the rule lists returned after a mid-read I/O error -/

/-- The claim C8 states for the error case: empty exclude and include
lists. -/
def c8_claimed_result : List (List Char) × List (List Char) := ([], [])

/-- Counterexample to claim C8: when the I/O error strikes after the lines
`[exclude]` and `*.log` have been read, `parse_config` warns but returns
`(["*.log"], [])` — the lists accumulated so far — not empty lists: the
`except` handler (lines 83-84) only prints and then falls through to
`return exclude_patterns, include_patterns`. -/
theorem parse_config_error_keeps_patterns :
    (parse_config true [("[exclude]").toList, ("*.log").toList] .ioError).1
      = ([("*.log").toList], [])
    ∧ (parse_config true [("[exclude]").toList, ("*.log").toList] .ioError).1
      ≠ c8_claimed_result
    ∧ (parse_config true [("[exclude]").toList, ("*.log").toList] .ioError).2
      = [("Warning: Could not read .repotomdrc").toList] := by
  refine ⟨by decide, by decide, by decide⟩

/-- Amended claim C8: on an I/O error the loader emits a warning, returns
the exclude/include lists accumulated up to the failure point — these are
empty exactly when the failure occurs before any pattern line was read —
and the run continues.  The returned lists equal what a successful parse
of the truncated line sequence yields. -/
theorem parse_config_error_returns_accumulated (readLines : List (List Char)) :
    (parse_config true readLines .ioError).1 = (parse_config true readLines .ok).1
    ∧ (parse_config true readLines .ioError).2
      = [("Warning: Could not read .repotomdrc").toList]
    ∧ (parse_config true [] .ioError).1 = ([], []) := by
  refine ⟨rfl, rfl, rfl⟩

/-! ### C4 — the `lineCount` of a text file -/

/-- The line count as claim C4 words it: the number of newline-delimited
lines of the decoded content, with the (single) trailing empty line
arising from a final newline excluded. -/
def c4_claimed_line_count (c : List Char) : Nat :=
  let segs := splitOnChar '\n' c
  if c.getLast? = some '\n' then segs.length - 1 else segs.length

/-- Counterexample to claim C4: the text content `"a\n\n"` has two
newline-delimited lines once the final newline's empty segment is
excluded (the line `a` and one empty line), but line 389's
`content.rstrip('\n')` strips *all* trailing newlines, so the builder
counts 1. -/
theorem line_count_strips_all_trailing_newlines :
    content_lines_of (some (("a\n\n").toList)) = 1
    ∧ c4_claimed_line_count (("a\n\n").toList) = 2
    ∧ (1 : Nat) ≠ 2 := by
  refine ⟨by decide, by decide, by decide⟩

/-- Amended claim C4: for a text file whose content does not end in two or
more consecutive newlines, the builder's `lineCount` equals the claimed
count (newline-delimited lines, the trailing empty line from a final
newline excluded); when the content ends in several newlines the builder
strips them all, so genuine trailing blank lines are also excluded.  For
a binary file `lineCount` is exactly 1.  (The binary conjunct is the
second part; the restriction is only needed for the first.) -/
theorem line_count_amended (c : List Char) (h : ¬ (("\n\n").toList <:+ c)) :
    content_lines_of (some c) = c4_claimed_line_count c
    ∧ content_lines_of none = 1 := by
  refine ⟨?_, rfl⟩
  have hnl2 : ("\n\n").toList = ['\n', '\n'] := rfl
  rw [hnl2] at h
  have hpre : ¬ (['\n', '\n'] <+: c.reverse) := by
    intro hp
    apply h
    have h2 : (['\n', '\n'] : List Char).reverse = ['\n', '\n'] := rfl
    exact List.reverse_prefix.mp (h2 ▸ hp)
  simp only [content_lines_of, c4_claimed_line_count, rstripNl, rstripChar]
  rw [splitOnChar_length, splitOnChar_length]
  have hlast : c.getLast? = c.reverse.head? := by
    rw [List.head?_reverse]
  cases hrev : c.reverse with
  | nil =>
    have hc : c = [] := by
      have := congrArg List.reverse hrev
      simpa using this
    subst hc
    decide
  | cons a rs =>
    by_cases ha : a = '\n'
    · subst ha
      have hlast2 : c.getLast? = some '\n' := by rw [hlast, hrev]; rfl
      rw [hlast2]
      have hrs : rs.head? ≠ some '\n' := by
        intro hh
        cases rs with
        | nil => simp at hh
        | cons b t =>
          simp at hh
          subst hh
          exact hpre (hrev ▸ ⟨t, rfl⟩)
      have hdrop : List.dropWhile (fun x => x = '\n') ('\n' :: rs) = rs := by
        rw [List.dropWhile_cons]
        simp only [decide_eq_true_eq, if_pos rfl]
        cases rs with
        | nil => rfl
        | cons b t =>
          rw [List.dropWhile_cons]
          have hb : ¬ (b = '\n') := by
            intro hb; exact hrs (by rw [hb]; rfl)
          simp [hb]
      rw [hdrop]
      have hcount : c.count '\n' = rs.count '\n' + 1 := by
        have h1 : c.count '\n' = c.reverse.count '\n' := (List.count_reverse _ _).symm
        rw [h1, hrev]
        simp [List.count_cons]
      simp [List.count_reverse, hcount]
    · have hlast2 : c.getLast? ≠ some '\n' := by
        rw [hlast, hrev]
        simp [ha]
      rw [if_neg hlast2]
      have hdrop : List.dropWhile (fun x => x = '\n') (a :: rs) = a :: rs := by
        rw [List.dropWhile_cons]
        simp [ha]
      rw [hdrop, ← hrev]
      simp

/-- Witness for the amended C4 at a concrete input: `"a\n"` does not end
in a double newline and its builder line count equals the claimed count
(both are 1). -/
theorem line_count_amended_witness :
    ¬ (("\n\n").toList <:+ ("a\n").toList)
    ∧ (content_lines_of (some (("a\n").toList)) = c4_claimed_line_count (("a\n").toList)
       ∧ content_lines_of none = 1) :=
  ⟨by decide, line_count_amended (("a\n").toList) (by decide)⟩

/-! ### C5 — the single-`**` branch of the Pattern Matcher -/

/-- The matching condition exactly as claim C5 words it for a pattern with
one `**` and a non-empty suffix: the first path segment must satisfy the
(trimmed) prefix whenever that prefix is non-empty, and some tail of the
path's segments, from the full path down to the final segment, must
glob-match the (trimmed) suffix. -/
def c5_claimed_cond (path pre0 suf0 : List Char) : Bool :=
  let fp := normSep path
  let pr := rstripChar '/' pre0
  let su := lstripChar '/' suf0
  let parts := splitOnChar '/' fp
  (decide (pr = []) || fnmatch (parts.headD []) pr)
  && (List.range parts.length).any (fun i =>
       fnmatch (List.intercalate slashSep (parts.drop i)) su)

/-- Counterexample to claim C5: for the pattern `do/**/x` (one `**`,
trimmed prefix `do`, trimmed suffix `x`) and the path `dox/x`, the code
returns true — line 109's `filepath.startswith(prefix.rstrip('*'))`
accepts `dox/x` because the *string* `dox/x` starts with `do` — while the
claim's condition is false, since the first path segment `dox` does not
glob-match the prefix `do`. -/
theorem matches_pattern_gate_counterexample :
    hasDoubleStar (normSep (("do/**/x").toList)) = true
    ∧ splitDS (normSep (("do/**/x").toList)) = [("do/").toList, ("/x").toList]
    ∧ lstripChar '/' (("/x").toList) ≠ []
    ∧ matches_pattern (("dox/x").toList) (("do/**/x").toList) = true
    ∧ c5_claimed_cond (("dox/x").toList) (("do/").toList) (("/x").toList) = false := by
  refine ⟨by decide, by decide, by decide, by decide, by decide⟩

/-- Amended claim C5: for a pattern with exactly one `**` occurrence and a
non-empty trimmed suffix, `matches_pattern` returns true iff BOTH
(a) the trimmed prefix is empty, OR the normalized path starts (as a
string) with the prefix with trailing `*` stripped, OR the first path
segment glob-matches the prefix, AND (b) some tail of the path's
segments, tried from the full path down to the single trailing segment,
glob-matches the trimmed suffix (lines 102-120). -/
theorem matches_pattern_doublestar_amended
    (path pat pre0 suf0 : List Char)
    (hds : hasDoubleStar (normSep pat) = true)
    (hsplit : splitDS (normSep pat) = [pre0, suf0])
    (hsuf : lstripChar '/' suf0 ≠ []) :
    matches_pattern path pat = true ↔
      ((rstripChar '/' pre0 = []
        ∨ List.isPrefixOf (rstripChar '*' (rstripChar '/' pre0)) (normSep path) = true
        ∨ fnmatch ((splitOnChar '/' (normSep path)).headD []) (rstripChar '/' pre0) = true)
       ∧ ∃ i, i < (splitOnChar '/' (normSep path)).length
           ∧ fnmatch (List.intercalate slashSep ((splitOnChar '/' (normSep path)).drop i))
               (lstripChar '/' suf0) = true) := by
  have e1 : matches_pattern path pat = mp_doublestar (normSep path) pre0 suf0 := by
    unfold matches_pattern
    simp only [hds, if_true]
    rw [hsplit]
  rw [e1]
  unfold mp_doublestar
  simp only [rstripChar_idem, lstripChar_idem, Bool.or_self]
  by_cases hg : (rstripChar '/' pre0 ≠ []
      ∧ ¬ (List.isPrefixOf (rstripChar '*' (rstripChar '/' pre0)) (normSep path) = true)
      ∧ ¬ (fnmatch ((splitOnChar '/' (normSep path)).headD []) (rstripChar '/' pre0) = true))
  · rw [if_pos hg]
    constructor
    · intro hfalse
      exact absurd hfalse (by simp)
    · rintro ⟨hgd, -⟩
      rcases hgd with h0 | h0 | h0
      · exact absurd h0 hg.1
      · exact absurd h0 hg.2.1
      · exact absurd h0 hg.2.2
  · rw [if_neg hg, if_pos hsuf]
    have hgd : rstripChar '/' pre0 = []
        ∨ List.isPrefixOf (rstripChar '*' (rstripChar '/' pre0)) (normSep path) = true
        ∨ fnmatch ((splitOnChar '/' (normSep path)).headD []) (rstripChar '/' pre0) = true := by
      tauto
    constructor
    · intro ha
      refine ⟨hgd, ?_⟩
      rw [List.any_eq_true] at ha
      obtain ⟨i, hmem, hf⟩ := ha
      exact ⟨i, List.mem_range.mp hmem, hf⟩
    · rintro ⟨-, i, hi, hf⟩
      rw [List.any_eq_true]
      exact ⟨i, List.mem_range.mpr hi, hf⟩

/-- Witness for the amended C5: the pattern `docs/**/*.md` against the
path `docs/a.md` satisfies all three hypotheses, and the equivalence
instantiates there. -/
theorem matches_pattern_doublestar_amended_witness :
    (hasDoubleStar (normSep (("docs/**/*.md").toList)) = true
     ∧ splitDS (normSep (("docs/**/*.md").toList)) = [("docs/").toList, ("/*.md").toList]
     ∧ lstripChar '/' (("/*.md").toList) ≠ [])
    ∧ (matches_pattern (("docs/a.md").toList) (("docs/**/*.md").toList) = true ↔
      ((rstripChar '/' (("docs/").toList) = []
        ∨ List.isPrefixOf (rstripChar '*' (rstripChar '/' (("docs/").toList)))
            (normSep (("docs/a.md").toList)) = true
        ∨ fnmatch ((splitOnChar '/' (normSep (("docs/a.md").toList))).headD [])
            (rstripChar '/' (("docs/").toList)) = true)
       ∧ ∃ i, i < (splitOnChar '/' (normSep (("docs/a.md").toList))).length
           ∧ fnmatch (List.intercalate slashSep
                ((splitOnChar '/' (normSep (("docs/a.md").toList))).drop i))
               (lstripChar '/' (("/*.md").toList)) = true)) :=
  ⟨⟨by decide, by decide, by decide⟩,
    matches_pattern_doublestar_amended (("docs/a.md").toList) (("docs/**/*.md").toList)
      (("docs/").toList) (("/*.md").toList) (by decide) (by decide) (by decide)⟩

/-! ### C6 — selector precedence -/

/-- Counterexample to claim C6: tracked `{a, b}`, on-disk files
`{a, b, c, d}` with `c` and `d` untracked, exclude list `["b"]` (matches
`b`, not `a`), include list `["*"]` (matches `c`, as the claim requires —
and none of `a`, `b`, `c` is `.repotomdrc`).  The selector returns
`{a, c, d}`, not the claimed `{a, c}`: line 224 adds *every* ignored file
matching any include pattern, so `d` comes along too. -/
theorem selector_adds_every_matching_untracked :
    matches_any_pattern (("b").toList) [("b").toList] = true
    ∧ matches_any_pattern (("a").toList) [("b").toList] = false
    ∧ matches_any_pattern (("c").toList) [("*").toList] = true
    ∧ (("c").toList : List Char)
        ∉ ({("a").toList, ("b").toList} : Finset (List Char))
    ∧ (("c").toList : List Char)
        ∈ ({("a").toList, ("b").toList, ("c").toList, ("d").toList} : Finset (List Char))
    ∧ (("a").toList : List Char) ≠ CONFIG_FILENAME
    ∧ (("b").toList : List Char) ≠ CONFIG_FILENAME
    ∧ (("c").toList : List Char) ≠ CONFIG_FILENAME
    ∧ get_filtered_files {("a").toList, ("b").toList}
        {("a").toList, ("b").toList, ("c").toList, ("d").toList}
        [("b").toList] [("*").toList]
      = {("a").toList, ("c").toList, ("d").toList}
    ∧ get_filtered_files {("a").toList, ("b").toList}
        {("a").toList, ("b").toList, ("c").toList, ("d").toList}
        [("b").toList] [("*").toList]
      ≠ {("a").toList, ("c").toList} := by
  refine ⟨by decide, by decide, by decide, by decide, by decide,
    by decide, by decide, by decide, by decide, by decide⟩

/-- Amended claim C6: with the additional hypothesis that `C` is the
*only* untracked on-disk path matching the include list, the selector
returns exactly `{A, C}`: excluded tracked files are removed and include
patterns add exactly the matching paths of `allFiles − trackedFiles`
(lines 210-233). -/
theorem selector_precedence_amended (A B C : List Char) (allf : Finset (List Char))
    (excl incl : List (List Char))
    (hCall : C ∈ allf) (hCun : C ∉ ({A, B} : Finset (List Char)))
    (hB : matches_any_pattern B excl = true)
    (hA : matches_any_pattern A excl = false)
    (hC : matches_any_pattern C incl = true)
    (hAcfg : A ≠ CONFIG_FILENAME) (hBcfg : B ≠ CONFIG_FILENAME)
    (hCcfg : C ≠ CONFIG_FILENAME)
    (huniq : ∀ f ∈ allf, f ∉ ({A, B} : Finset (List Char)) →
      matches_any_pattern f incl = true → f = C) :
    get_filtered_files {A, B} allf excl incl = {A, C} := by
  have hexcl : excl.isEmpty = false := by
    cases excl with
    | nil => exact absurd hB (by simp [matches_any_pattern])
    | cons p ps => rfl
  have hincl : incl.isEmpty = false := by
    cases incl with
    | nil => exact absurd hC (by simp [matches_any_pattern])
    | cons p ps => rfl
  unfold get_filtered_files
  simp only [hexcl, hincl, Bool.false_eq_true, if_false]
  apply Finset.ext
  intro x
  simp only [Finset.mem_erase, Finset.mem_union, Finset.mem_filter, Finset.mem_sdiff,
    Finset.mem_insert, Finset.mem_singleton]
  constructor
  · rintro ⟨hxc, hcase⟩
    rcases hcase with ⟨hab, hmx⟩ | ⟨⟨hxall, hxnab⟩, hmi⟩
    · rcases hab with rfl | rfl
      · exact Or.inl rfl
      · rw [hB] at hmx
        cases hmx
    · exact Or.inr (huniq x hxall (by simp [hxnab]) hmi)
  · rintro (rfl | rfl)
    · exact ⟨hAcfg, Or.inl ⟨Or.inl rfl, hA⟩⟩
    · refine ⟨hCcfg, Or.inr ⟨⟨hCall, ?_⟩, hC⟩⟩
      simpa using hCun

/-- Witness for the amended C6 at a concrete input: tracked `{a, b}`,
on-disk `{a, b, c}`, exclude `["b"]`, include `["c"]`; `c` is the only
matching untracked path and the selection is exactly `{a, c}`. -/
theorem selector_precedence_amended_witness :
    ((("c").toList : List Char) ∈ ({("a").toList, ("b").toList, ("c").toList} : Finset (List Char))
     ∧ (("c").toList : List Char) ∉ ({("a").toList, ("b").toList} : Finset (List Char))
     ∧ matches_any_pattern (("b").toList) [("b").toList] = true
     ∧ matches_any_pattern (("a").toList) [("b").toList] = false
     ∧ matches_any_pattern (("c").toList) [("c").toList] = true)
    ∧ get_filtered_files {("a").toList, ("b").toList}
        {("a").toList, ("b").toList, ("c").toList} [("b").toList] [("c").toList]
      = {("a").toList, ("c").toList} :=
  ⟨⟨by decide, by decide, by decide, by decide, by decide⟩,
    selector_precedence_amended (("a").toList) (("b").toList) (("c").toList)
      {("a").toList, ("b").toList, ("c").toList} [("b").toList] [("c").toList]
      (by decide) (by decide) (by decide) (by decide) (by decide)
      (by decide) (by decide) (by decide) (by decide)⟩

/-! ### Range accounting lemmas (for C1, C2, C3) -/

/-- The number of physical lines contributed by the sections of the first
`i` files: each file's section occupies `lineCount + 9` physical lines. -/
def sections_off (files : List FileEntry) (i : Nat) : Nat :=
  ((files.take i).map (fun f => content_lines_of f.content + 9)).sum

theorem sections_off_zero (files : List FileEntry) : sections_off files 0 = 0 := rfl

theorem sections_off_succ (files : List FileEntry) (i : Nat) (h : i < files.length) :
    sections_off files (i + 1)
      = sections_off files i + (content_lines_of (files.get ⟨i, h⟩).content + 9) := by
  unfold sections_off
  rw [List.take_succ, List.getElem?_eq_getElem h]
  rw [List.map_append, List.sum_append]
  simp [List.get_eq_getElem]

theorem sections_off_mono (files : List FileEntry) (i j : Nat) (hij : i ≤ j) :
    sections_off files i ≤ sections_off files j := by
  induction j with
  | zero => simp at hij; simp [hij]
  | succ j ih =>
    rcases Nat.lt_or_ge j files.length with hj | hj
    · rcases Nat.lt_or_ge i (j + 1) with hij' | hij'
      · have := ih (Nat.lt_succ_iff.mp hij')
        rw [sections_off_succ files j hj]
        omega
      · have : i = j + 1 := by omega
        simp [this]
    · have heq : sections_off files (j + 1) = sections_off files j := by
        unfold sections_off
        rw [List.take_of_length_le (by omega), List.take_of_length_le hj]
      rcases Nat.lt_or_ge i (j + 1) with hij' | hij'
      · rw [heq]; exact ih (Nat.lt_succ_iff.mp hij')
      · have : i = j + 1 := by omega
        simp [this]

theorem ranges_from_length (fs : List FileEntry) (s : Nat) :
    (ranges_from fs s).length = fs.length := by
  induction fs generalizing s with
  | nil => rfl
  | cons f rest ih => simp [ranges_from, ih]

/-- Closed form of the accumulation loop: file `i`'s entry starts at
`s + sections_off i` and ends `lineCount + 7` lines later. -/
theorem ranges_from_get (fs : List FileEntry) (s i : Nat) (h : i < fs.length) :
    (ranges_from fs s)[i]? =
      some (s + sections_off fs i,
            s + sections_off fs i + content_lines_of (fs.get ⟨i, h⟩).content + 7,
            file_type_of (fs.get ⟨i, h⟩).content) := by
  induction fs generalizing s i with
  | nil => exact absurd h (by simp)
  | cons f rest ih =>
    cases i with
    | zero =>
      simp only [ranges_from, List.getElem?_cons_zero, sections_off_zero, List.get]
      have harith : s + (4 + 1 + content_lines_of f.content + 1 + 1 + 1) - 1
          = s + content_lines_of f.content + 7 := by omega
      rw [harith]
      simp
    | succ i =>
      have hrest : i < rest.length := by simpa using h
      simp only [ranges_from, List.getElem?_cons_succ]
      rw [ih (s + (4 + 1 + content_lines_of f.content + 1 + 1 + 1) - 1 + 2) i hrest]
      have hoff : sections_off (f :: rest) (i + 1)
          = (content_lines_of f.content + 9) + sections_off rest i := by
        unfold sections_off
        simp [List.take_succ_cons]
      have harith : s + (4 + 1 + content_lines_of f.content + 1 + 1 + 1) - 1 + 2
          = s + (content_lines_of f.content + 9) := by omega
      rw [harith, hoff]
      have : s + (content_lines_of f.content + 9) + sections_off rest i
          = s + ((content_lines_of f.content + 9) + sections_off rest i) := by omega
      rw [this]
      rfl

/-! ### C1 — the per-file section line-count formula -/

/-- A two-text-file example selection (each file has one content line). -/
def exampleA : FileEntry := ⟨("a.txt").toList, some (("x").toList)⟩

/-- Second file of the example selection. -/
def exampleB : FileEntry := ⟨("b.txt").toList, some (("y").toList)⟩

/-- Counterexample to claim C1: for the sorted selection
`[a.txt ("x"), b.txt ("y")]` (both `lineCount = 1`) the builder computes
the ranges `(30, 38)` and `(40, 48)`; the claimed formula
`endLine = startLine + (4 + 1 + lineCount + 1 + 3) - 1` would give
`30 + 9 = 39 ≠ 38` (line 406 adds `4+1+lineCount+1+1+1`, a 2-line
trailer), and the next file starts at `40 = 38 + 2`, not `endLine + 1`
(line 411). -/
theorem section_formula_counterexample :
    content_lines_of exampleA.content = 1
    ∧ file_line_ranges (("repo").toList) (("/repo").toList) [exampleA, exampleB]
      = [(30, 38, ("text").toList), (40, 48, ("text").toList)]
    ∧ 38 ≠ 30 + (4 + 1 + 1 + 1 + 3) - 1
    ∧ 40 ≠ 38 + 1 := by
  refine ⟨by decide, by decide, by decide, by decide⟩

/-- Amended claim C1: for every sorted non-empty selection and every file
in it, `endLine = startLine + (4 + 1 + lineCount + 1 + 2) - 1` — the
computed section range covers the 4-line header, the fence-open line,
`lineCount` content lines, the fence-close line, and a 2-line trailer
(blank line and `---` separator) — and the next file in sort order gets
`startLine = endLine + 2`, skipping the one blank line that lies between
the separator and the next header. -/
theorem section_formula_amended (repoName repoPath : List Char)
    (files : List FileEntry) (i : Nat) (hi : i < files.length) :
    ∃ s e,
      (file_line_ranges repoName repoPath files)[i]?
        = some (s, e, file_type_of (files.get ⟨i, hi⟩).content)
      ∧ e = s + (4 + 1 + content_lines_of (files.get ⟨i, hi⟩).content + 1 + 2) - 1
      ∧ ∀ h' : i + 1 < files.length,
          ((file_line_ranges repoName repoPath files)[i + 1]?).map
              (fun r => r.1)
            = some (e + 2) := by
  unfold file_line_ranges
  rw [ranges_from_get files _ i hi]
  refine ⟨_, _, rfl, by omega, ?_⟩
  intro h'
  rw [ranges_from_get files _ (i + 1) h']
  rw [sections_off_succ files i hi]
  simp only [Option.map_some']
  congr 1
  omega

/-- Witness for the amended C1 at the two-file example: the first file's
range is `(30, 38)` with `38 = 30 + (4+1+1+1+2) - 1`, and the second
starts at `40 = 38 + 2`. -/
theorem section_formula_amended_witness :
    (0 < ([exampleA, exampleB] : List FileEntry).length)
    ∧ ∃ s e,
      (file_line_ranges (("repo").toList) (("/repo").toList) [exampleA, exampleB])[0]?
        = some (s, e, file_type_of (([exampleA, exampleB].get ⟨0, by decide⟩)).content)
      ∧ e = s + (4 + 1 + content_lines_of (([exampleA, exampleB].get ⟨0, by decide⟩)).content + 1 + 2) - 1
      ∧ ∀ h' : 0 + 1 < ([exampleA, exampleB] : List FileEntry).length,
          ((file_line_ranges (("repo").toList) (("/repo").toList) [exampleA, exampleB])[0 + 1]?).map
              (fun r => r.1)
            = some (e + 2) :=
  ⟨by decide, section_formula_amended (("repo").toList) (("/repo").toList)
    [exampleA, exampleB] 0 (by decide)⟩

/-! ### C3 — ranges are non-overlapping, increasing, fixed spacer -/

/-- Claim C3: for every non-empty selection the computed SectionRanges
are pairwise non-overlapping and strictly increasing in sort order
(`startLine ≤ endLine` within a range and `endLine i < startLine j` for
`i < j`), and the endLine of file `i` plus the fixed inter-section spacer
constant equals the startLine of file `i+1` — the same constant, 2,
between every consecutive pair (line 411's `current_line = end_line + 2`). -/
theorem ranges_increasing_fixed_spacer (repoName repoPath : List Char)
    (files : List FileEntry) (i j : Nat) (hij : i < j) (hj : j < files.length) :
    ∃ si ei sj ej tyi tyj,
      (file_line_ranges repoName repoPath files)[i]? = some (si, ei, tyi)
      ∧ (file_line_ranges repoName repoPath files)[j]? = some (sj, ej, tyj)
      ∧ si ≤ ei
      ∧ ei < sj
      ∧ (j = i + 1 → sj = ei + 2) := by
  have hi : i < files.length := by omega
  unfold file_line_ranges
  rw [ranges_from_get files _ i hi, ranges_from_get files _ j hj]
  refine ⟨_, _, _, _, _, _, rfl, rfl, by omega, ?_, ?_⟩
  · have h1 : sections_off files (i + 1)
        = sections_off files i + (content_lines_of (files.get ⟨i, hi⟩).content + 9) :=
      sections_off_succ files i hi
    have h2 : sections_off files (i + 1) ≤ sections_off files j :=
      sections_off_mono files (i + 1) j (by omega)
    omega
  · intro hji
    subst hji
    have h1 : sections_off files (i + 1)
        = sections_off files i + (content_lines_of (files.get ⟨i, hi⟩).content + 9) :=
      sections_off_succ files i hi
    omega

/-- Witness for C3 at the two-file example: the ranges `(30, 38)` and
`(40, 48)` are increasing, non-overlapping, and `40 = 38 + 2`. -/
theorem ranges_increasing_fixed_spacer_witness :
    ((0 : Nat) < 1 ∧ 1 < ([exampleA, exampleB] : List FileEntry).length)
    ∧ ∃ si ei sj ej tyi tyj,
      (file_line_ranges (("repo").toList) (("/repo").toList) [exampleA, exampleB])[0]?
        = some (si, ei, tyi)
      ∧ (file_line_ranges (("repo").toList) (("/repo").toList) [exampleA, exampleB])[1]?
        = some (sj, ej, tyj)
      ∧ si ≤ ei
      ∧ ei < sj
      ∧ (1 = 0 + 1 → sj = ei + 2) :=
  ⟨⟨by decide, by decide⟩,
    ranges_increasing_fixed_spacer (("repo").toList) (("/repo").toList)
      [exampleA, exampleB] 0 1 (by decide) (by decide)⟩

/-! ### C2 — the TOC ranges bound the actually rendered sections -/

/-- The head of a rendered section: the 4 header lines, the opening fence
and the content lines (`lineCount + 5` physical lines). -/
def sec_head (f : FileEntry) : List (List Char) :=
  [("### ").toList ++ f.path,
   [],
   ("**Path:** `").toList ++ f.path ++ ("`").toList,
   []]
  ++ (match f.content with
      | none => [("```").toList, ("[Binary file - content not displayed]").toList]
      | some c => (("```").toList ++ ext_of f.path) :: splitOnChar '\n' (rstripNl c))

/-- The fixed 4-line trailer of every rendered section. -/
def sec_tail : List (List Char) :=
  [("```").toList, [], ("---").toList, []]

theorem file_section_lines_decomp (f : FileEntry) :
    file_section_lines f = sec_head f ++ sec_tail := by
  cases f with
  | mk p c =>
    cases c <;> simp [file_section_lines, sec_head, sec_tail]

theorem sec_head_length (f : FileEntry) :
    (sec_head f).length = content_lines_of f.content + 5 := by
  cases f with
  | mk p c =>
    cases c <;> simp [sec_head, content_lines_of]

theorem file_section_lines_length (f : FileEntry) :
    (file_section_lines f).length = content_lines_of f.content + 9 := by
  rw [file_section_lines_decomp, List.length_append, sec_head_length]
  simp [sec_tail]

theorem sections_off_cons_succ (f : FileEntry) (rest : List FileEntry) (i : Nat) :
    sections_off (f :: rest) (i + 1)
      = (content_lines_of f.content + 9) + sections_off rest i := by
  unfold sections_off
  simp [List.take_succ_cons]

theorem flatten_drop_sections (fs : List FileEntry) (i : Nat) :
    ((fs.map file_section_lines).flatten).drop (sections_off fs i)
      = ((fs.drop i).map file_section_lines).flatten := by
  induction i generalizing fs with
  | zero => simp [sections_off_zero]
  | succ i ih =>
    cases fs with
    | nil => simp [sections_off]
    | cons f rest =>
      rw [sections_off_cons_succ]
      simp only [List.map_cons, List.flatten_cons, List.drop_succ_cons]
      rw [← List.drop_drop, List.drop_left' (file_section_lines_length f)]
      exact ih rest

theorem file_line_ranges_length (rn rp : List Char) (files : List FileEntry) :
    (file_line_ranges rn rp files).length = files.length := by
  unfold file_line_ranges
  exact ranges_from_length files _

theorem toc_rows_length (rn rp : List Char) (files : List FileEntry) :
    (toc_rows rn rp files).length = files.length := by
  unfold toc_rows
  rw [List.length_map, List.length_zip, file_line_ranges_length]
  exact Nat.min_self _

/-- Dropping the pre-content block plus `k` from the whole document lands
`k` lines into the concatenated file sections. -/
theorem output_drop (rn rp : List Char) (files : List FileEntry) (k : Nat) :
    (output_lines rn rp files).drop (pre_content_lines rn rp files + k)
      = ((files.map file_section_lines).flatten).drop k := by
  have hdecomp : output_lines rn rp files
      = (header_lines rn rp files.length ++ structure_lines rn files ++ toc_header
          ++ toc_rows rn rp files ++ content_section_header)
        ++ (files.map file_section_lines).flatten := by
    simp [output_lines, List.append_assoc]
  have hlen : (header_lines rn rp files.length ++ structure_lines rn files ++ toc_header
      ++ toc_rows rn rp files ++ content_section_header).length
      = pre_content_lines rn rp files := by
    simp only [List.length_append, toc_rows_length]
    unfold pre_content_lines
    omega
  rw [hdecomp, ← List.drop_drop, List.drop_left' hlen]

/-- Inside a section's computed range, the document's physical line at
offset `k` from the section's start is line `k` of that file's rendered
section. -/
theorem output_getElem_section (rn rp : List Char) (files : List FileEntry)
    (i : Nat) (hi : i < files.length) (k : Nat)
    (hk : k < content_lines_of files[i].content + 9) :
    (output_lines rn rp files)[pre_content_lines rn rp files + sections_off files i + k]?
      = (file_section_lines files[i])[k]? := by
  have h1 : (output_lines rn rp files)[pre_content_lines rn rp files + sections_off files i + k]?
      = ((output_lines rn rp files).drop (pre_content_lines rn rp files + sections_off files i))[k]? := by
    rw [List.getElem?_drop]
  rw [h1, output_drop, flatten_drop_sections, List.drop_eq_getElem_cons hi]
  simp only [List.map_cons, List.flatten_cons]
  rw [List.getElem?_append_left]
  rw [file_section_lines_length]
  exact hk

/-- Claim C2: for every non-empty selection and every file in it, the
`(start, end)` pair carried by that file's TOC row equals the 1-indexed
physical line numbers at which the file's rendered section actually
begins and ends in the final newline-joined output: line `start` is the
`### path` header, line `end` is the section's `---` separator (the
code's layout comment, lines 392-402, assigns the blank line after it to
the next section), the closing fence sits at line `end - 2` inside the
range, and lines `start..end` are exactly the section's lines without its
final blank.  This holds for 1 and N files; an empty text file has
`lineCount = 1` (last conjunct). -/
theorem toc_ranges_match_rendered_sections (rn rp : List Char)
    (files : List FileEntry) (i : Nat) (hi : i < files.length) :
    ∃ s e,
      (file_line_ranges rn rp files)[i]?
        = some (s, e, file_type_of files[i].content)
      ∧ (toc_rows rn rp files)[i]? = some (toc_row files[i] s e)
      ∧ ((output_lines rn rp files).drop (s - 1)).take (e + 1 - s)
          = (file_section_lines files[i]).take (content_lines_of files[i].content + 8)
      ∧ (output_lines rn rp files)[s - 1]?
          = some (("### ").toList ++ files[i].path)
      ∧ (output_lines rn rp files)[e - 1]? = some (("---").toList)
      ∧ (output_lines rn rp files)[e - 3]? = some (("```").toList)
      ∧ content_lines_of (some []) = 1 := by
  have hrange : (file_line_ranges rn rp files)[i]?
      = some (pre_content_lines rn rp files + 1 + sections_off files i,
              pre_content_lines rn rp files + 1 + sections_off files i
                + content_lines_of files[i].content + 7,
              file_type_of files[i].content) := by
    unfold file_line_ranges
    rw [ranges_from_get files _ i hi]
    simp [List.get_eq_getElem]
  refine ⟨_, _, hrange, ?_, ?_, ?_, ?_, ?_, rfl⟩
  · unfold toc_rows
    rw [List.getElem?_map]
    have hz : (files.zip (file_line_ranges rn rp files))[i]?
        = some (files[i],
            (pre_content_lines rn rp files + 1 + sections_off files i,
             pre_content_lines rn rp files + 1 + sections_off files i
               + content_lines_of files[i].content + 7,
             file_type_of files[i].content)) := by
      rw [List.getElem?_zip_eq_some]
      exact ⟨by rw [List.getElem?_eq_getElem hi], hrange⟩
    rw [hz]
    rfl
  · have hs1 : pre_content_lines rn rp files + 1 + sections_off files i - 1
        = pre_content_lines rn rp files + sections_off files i := by omega
    have he1 : pre_content_lines rn rp files + 1 + sections_off files i
          + content_lines_of files[i].content + 7 + 1
          - (pre_content_lines rn rp files + 1 + sections_off files i)
        = content_lines_of files[i].content + 8 := by omega
    rw [hs1, he1, output_drop, flatten_drop_sections, List.drop_eq_getElem_cons hi]
    simp only [List.map_cons, List.flatten_cons]
    rw [List.take_append_of_le_length (by rw [file_section_lines_length]; omega)]
  · have hidx : pre_content_lines rn rp files + 1 + sections_off files i - 1
        = pre_content_lines rn rp files + sections_off files i + 0 := by omega
    rw [hidx, output_getElem_section rn rp files i hi 0 (by omega)]
    rw [file_section_lines_decomp]
    rw [List.getElem?_append_left (by rw [sec_head_length]; omega)]
    unfold sec_head
    rw [List.getElem?_append_left (by simp)]
    try rfl
  · have hidx : pre_content_lines rn rp files + 1 + sections_off files i
          + content_lines_of files[i].content + 7 - 1
        = pre_content_lines rn rp files + sections_off files i
          + (content_lines_of files[i].content + 7) := by omega
    rw [hidx, output_getElem_section rn rp files i hi
      (content_lines_of files[i].content + 7) (by omega)]
    rw [file_section_lines_decomp]
    rw [List.getElem?_append_right (by rw [sec_head_length]; omega)]
    rw [sec_head_length]
    have h2 : content_lines_of files[i].content + 7
        - (content_lines_of files[i].content + 5) = 2 := by omega
    rw [h2]
    rfl
  · have hidx : pre_content_lines rn rp files + 1 + sections_off files i
          + content_lines_of files[i].content + 7 - 3
        = pre_content_lines rn rp files + sections_off files i
          + (content_lines_of files[i].content + 5) := by omega
    rw [hidx, output_getElem_section rn rp files i hi
      (content_lines_of files[i].content + 5) (by omega)]
    rw [file_section_lines_decomp]
    rw [List.getElem?_append_right (by rw [sec_head_length])]
    rw [sec_head_length]
    have h2 : content_lines_of files[i].content + 5
        - (content_lines_of files[i].content + 5) = 0 := by omega
    rw [h2]
    try rfl

/-- An empty text file (0 content bytes, `lineCount = 1`). -/
def exampleEmpty : FileEntry := ⟨("e.txt").toList, some []⟩

/-- A binary file. -/
def exampleBin : FileEntry := ⟨("z.bin").toList, none⟩

/-- Witness for C2 at a concrete selection containing an empty text file
and a binary file, instantiated at the empty text file. -/
theorem toc_ranges_match_rendered_sections_witness :
    (0 < ([exampleEmpty, exampleBin] : List FileEntry).length)
    ∧ ∃ s e,
      (file_line_ranges (("r2").toList) (("/tmp/r2").toList) [exampleEmpty, exampleBin])[0]?
        = some (s, e, file_type_of ([exampleEmpty, exampleBin] : List FileEntry)[0].content)
      ∧ (toc_rows (("r2").toList) (("/tmp/r2").toList) [exampleEmpty, exampleBin])[0]?
          = some (toc_row ([exampleEmpty, exampleBin] : List FileEntry)[0] s e)
      ∧ ((output_lines (("r2").toList) (("/tmp/r2").toList) [exampleEmpty, exampleBin]).drop (s - 1)).take (e + 1 - s)
          = (file_section_lines ([exampleEmpty, exampleBin] : List FileEntry)[0]).take
              (content_lines_of ([exampleEmpty, exampleBin] : List FileEntry)[0].content + 8)
      ∧ (output_lines (("r2").toList) (("/tmp/r2").toList) [exampleEmpty, exampleBin])[s - 1]?
          = some (("### ").toList ++ ([exampleEmpty, exampleBin] : List FileEntry)[0].path)
      ∧ (output_lines (("r2").toList) (("/tmp/r2").toList) [exampleEmpty, exampleBin])[e - 1]?
          = some (("---").toList)
      ∧ (output_lines (("r2").toList) (("/tmp/r2").toList) [exampleEmpty, exampleBin])[e - 3]?
          = some (("```").toList)
      ∧ content_lines_of (some []) = 1 :=
  ⟨by decide, toc_ranges_match_rendered_sections (("r2").toList) (("/tmp/r2").toList)
    [exampleEmpty, exampleBin] 0 (by decide)⟩

end Repo2Md
